import Mathlib

/-!
Verification of the PySpark `pyspark/sql/window.py` binding layer and of the
window-frame evaluation core its specification describes.

The binding layer (`Window`, `WindowSpec`, `_to_java_cols`) is embedded
directly from `src/python/pyspark/sql/window.py`.  The Python methods build
opaque JVM-side specification objects; we model those as a free term algebra
`JSpec` recording exactly which engine call was made with which arguments.
The evaluation core (boundary resolution, frame materialization) is not part
of the source fragment; its definitions are modelled from the specification
and are marked as such in their doc comments.
-/

namespace SparkWindow

/-- `sys.maxsize` of the CPython interpreter on a 64-bit platform:
`2^63 - 1`. -/
def sysMaxsize : Int := 2 ^ 63 - 1

/-- `WindowSpec._JAVA_MAX_LONG = (1 << 63) - 1` from the source
(`1 << 63 = 2^63`). -/
def _JAVA_MAX_LONG : Int := 2 ^ 63 - 1

/-- `WindowSpec._JAVA_MIN_LONG = -(1 << 63)` from the source
(`1 << 63 = 2^63`). -/
def _JAVA_MIN_LONG : Int := -(2 ^ 63)

/-- A JVM column object (the result of `_to_java_column`). -/
inductive JCol where
  | named : String → JCol
deriving DecidableEq, Repr

/-- A JVM-side window specification object.  The Python layer never inspects
these; it only constructs them through engine calls.  We record each call as
a constructor: `windowPartitionBy` is the static
`org.apache.spark.sql.expressions.Window.partitionBy(cols)` entry point, and
the other constructors are the instance methods invoked on a previously
obtained spec. -/
inductive JSpec where
  | windowPartitionBy : List JCol → JSpec
  | specPartitionBy : JSpec → List JCol → JSpec
  | specOrderBy : JSpec → List JCol → JSpec
  | specRowsBetween : JSpec → Int → Int → JSpec
  | specRangeBetween : JSpec → Int → Int → JSpec
deriving DecidableEq, Repr

/-- A Python-level argument to the varargs column methods: either a single
column reference or a Python list of column references. -/
inductive Arg where
  | col : String → Arg
  | colList : List String → Arg
deriving DecidableEq, Repr

/-- `_to_java_column` applied to one argument: converts a column reference,
and is undefined (raises) on a list. -/
def _to_java_column : Arg → Option JCol
  | Arg.col s => some (JCol.named s)
  | Arg.colList _ => none

/-- `_to_seq(sc, cols, _to_java_column)`: converts each element in order. -/
def _to_seq : List Arg → Option (List JCol)
  | [] => some []
  | a :: rest => do
    let j ← _to_java_column a
    let js ← _to_seq rest
    pure (j :: js)

/-- `_to_java_cols(cols)` from the source: when exactly one argument was
passed and it is a list, replace the argument tuple by that list, then
convert with `_to_seq`. -/
def _to_java_cols (cols : List Arg) : Option (List JCol) :=
  match cols with
  | [Arg.colList inner] => _to_seq (inner.map Arg.col)
  | _ => _to_seq cols

/-- The Python `WindowSpec` object: it wraps a JVM spec in its `_jspec`
attribute, assigned once in `__init__`. -/
structure WindowSpec where
  _jspec : JSpec
deriving DecidableEq, Repr

/-- `Window.partitionBy(*cols)` from the source: converts the columns and
calls the engine's static `Window.partitionBy`. -/
def Window.partitionBy (cols : List Arg) : Option WindowSpec :=
  (_to_java_cols cols).map fun jcols => ⟨JSpec.windowPartitionBy jcols⟩

/-- `Window.orderBy(*cols)` exactly as written in the source: its body is
identical to `Window.partitionBy` — it calls the engine's static
`Window.partitionBy`, not an `orderBy` operation. -/
def Window.orderBy (cols : List Arg) : Option WindowSpec :=
  (_to_java_cols cols).map fun jcols => ⟨JSpec.windowPartitionBy jcols⟩

/-- `WindowSpec.partitionBy(*cols)` from the source: builds a new
`WindowSpec` around `self._jspec.partitionBy(_to_java_cols(cols))`. -/
def WindowSpec.partitionBy (self : WindowSpec) (cols : List Arg) : Option WindowSpec :=
  (_to_java_cols cols).map fun jcols => ⟨JSpec.specPartitionBy self._jspec jcols⟩

/-- `WindowSpec.orderBy(*cols)` from the source: builds a new `WindowSpec`
around `self._jspec.orderBy(_to_java_cols(cols))`. -/
def WindowSpec.orderBy (self : WindowSpec) (cols : List Arg) : Option WindowSpec :=
  (_to_java_cols cols).map fun jcols => ⟨JSpec.specOrderBy self._jspec jcols⟩

/-- `WindowSpec.rowsBetween(start, end)` from the source: clamp `start` to
`_JAVA_MIN_LONG` when `start <= -sys.maxsize`, clamp `end` to
`_JAVA_MAX_LONG` when `end >= sys.maxsize`, and wrap
`self._jspec.rowsBetween(start, end)`. -/
def WindowSpec.rowsBetween (self : WindowSpec) (start stop : Int) : WindowSpec :=
  ⟨JSpec.specRowsBetween self._jspec
    (if start ≤ -sysMaxsize then _JAVA_MIN_LONG else start)
    (if stop ≥ sysMaxsize then _JAVA_MAX_LONG else stop)⟩

/-- `WindowSpec.rangeBetween(start, end)` from the source: the same clamping
as `rowsBetween`, wrapping `self._jspec.rangeBetween(start, end)`. -/
def WindowSpec.rangeBetween (self : WindowSpec) (start stop : Int) : WindowSpec :=
  ⟨JSpec.specRangeBetween self._jspec
    (if start ≤ -sysMaxsize then _JAVA_MIN_LONG else start)
    (if stop ≥ sysMaxsize then _JAVA_MAX_LONG else stop)⟩

/-! ### Python object heap

To state the copy-on-write property of the builder we model Python's object
store explicitly: `WindowSpec` objects live in a heap indexed by object
identity, each holding its `_jspec` attribute.  A method reads the
receiver's attribute and allocates a fresh object for its result; nothing
ever writes to an existing object (mirroring the source, whose methods
never reassign `self._jspec`). -/

/-- An object reference (Python object identity). -/
structure Ref where
  id : Nat
deriving DecidableEq, Repr

/-- The heap of allocated `WindowSpec` objects; index = object id, value =
the object's `_jspec` attribute. -/
structure PyHeap where
  objs : List JSpec
deriving DecidableEq, Repr

/-- Read a reference's `_jspec` attribute. -/
def PyHeap.get (h : PyHeap) (r : Ref) : Option JSpec :=
  h.objs.get? r.id

/-- Allocate a fresh `WindowSpec` object (the `WindowSpec(jspec)`
constructor call): append to the heap and return the new reference. -/
def PyHeap.alloc (h : PyHeap) (j : JSpec) : PyHeap × Ref :=
  (⟨h.objs ++ [j]⟩, ⟨h.objs.length⟩)

/-- One builder method invocation on a `WindowSpec` object. -/
inductive BuilderCall where
  | partitionBy : List Arg → BuilderCall
  | orderBy : List Arg → BuilderCall
  | rowsBetween : Int → Int → BuilderCall
  | rangeBetween : Int → Int → BuilderCall
deriving DecidableEq, Repr

/-- Execute one builder method on the object `r`: read `self._jspec`,
build the new engine spec exactly as the corresponding source method does,
and allocate the resulting `WindowSpec`.  `none` models a raised Python
exception (dead reference or failed column conversion). -/
def applyCall (h : PyHeap) (r : Ref) : BuilderCall → Option (PyHeap × Ref)
  | BuilderCall.partitionBy cols => do
    let js ← h.get r
    let jcols ← _to_java_cols cols
    pure (h.alloc (JSpec.specPartitionBy js jcols))
  | BuilderCall.orderBy cols => do
    let js ← h.get r
    let jcols ← _to_java_cols cols
    pure (h.alloc (JSpec.specOrderBy js jcols))
  | BuilderCall.rowsBetween start stop => do
    let js ← h.get r
    pure (h.alloc (JSpec.specRowsBetween js
      (if start ≤ -sysMaxsize then _JAVA_MIN_LONG else start)
      (if stop ≥ sysMaxsize then _JAVA_MAX_LONG else stop)))
  | BuilderCall.rangeBetween start stop => do
    let js ← h.get r
    pure (h.alloc (JSpec.specRangeBetween js
      (if start ≤ -sysMaxsize then _JAVA_MIN_LONG else start)
      (if stop ≥ sysMaxsize then _JAVA_MAX_LONG else stop)))

/-- Execute a chain of builder calls, each applied to the previous call's
result object. -/
def applyCalls (h : PyHeap) (r : Ref) : List BuilderCall → Option (PyHeap × Ref)
  | [] => some (h, r)
  | c :: rest => do
    let p ← applyCall h r c
    applyCalls p.1 p.2 rest

/-! ### Evaluation core (modelled from the spec)

The evaluation core — boundary decoding, ROWS/RANGE frame resolution and
the frame materializer — is not present in the source fragment (the
fragment forwards everything to the external engine), so the definitions
below are modelled from the specification (§3, §4.1, §4.4, §9). -/

/-- Modelled from the spec (§3 Boundary): the tagged frame-boundary
variant; `preceding`/`following` carry a non-negative offset magnitude. -/
inductive Boundary where
  | unboundedPreceding
  | unboundedFollowing
  | currentRow
  | preceding : Nat → Boundary
  | following : Nat → Boundary
deriving DecidableEq, Repr

/-- Modelled from the spec (§3, §9): the engine decodes the 64-bit sentinel
values into the Unbounded boundary variants — `_JAVA_MIN_LONG` stands for
unbounded-preceding, `_JAVA_MAX_LONG` for unbounded-following, `0` for the
current row — and any other integer into a `preceding`/`following` offset
of the corresponding magnitude. -/
def decodeBoundary (b : Int) : Boundary :=
  if b = _JAVA_MIN_LONG then Boundary.unboundedPreceding
  else if b = _JAVA_MAX_LONG then Boundary.unboundedFollowing
  else if b < 0 then Boundary.preceding (-b).toNat
  else if b = 0 then Boundary.currentRow
  else Boundary.following b.toNat

/-- Modelled from the spec (§4.1, ROWS mode): resolve a boundary at row
index `i` of a sorted partition of size `n`.  `preceding k` resolves to
`i - k` clamped to the partition start (truncated `Nat` subtraction),
`following k` to `i + k` clamped to the partition end, the unbounded
variants to the partition start/end, and `currentRow` to `i`. -/
def resolveRows (n i : Nat) : Boundary → Nat
  | Boundary.unboundedPreceding => 0
  | Boundary.unboundedFollowing => n - 1
  | Boundary.currentRow => i
  | Boundary.preceding k => i - k
  | Boundary.following k => min (i + k) (n - 1)

/-- Modelled from the spec (§4.4): the ROWS-mode frame `[lo, hi]` of row
`i` in a partition of size `n` under start/stop boundaries. -/
def rowsFrame (n i : Nat) (s b : Boundary) : Nat × Nat :=
  (resolveRows n i s, resolveRows n i b)

/-- The frames actually produced by the Python builder call
`rowsBetween(a, b)` at row `i` of a partition of size `n`: the source's
sentinel clamping, followed by the engine-side boundary decoding and
ROWS-mode resolution modelled from the spec. -/
def frameAt (a b : Int) (n i : Nat) : Nat × Nat :=
  rowsFrame n i
    (decodeBoundary (if a ≤ -sysMaxsize then _JAVA_MIN_LONG else a))
    (decodeBoundary (if b ≥ sysMaxsize then _JAVA_MAX_LONG else b))

/-- Number of keys strictly below `v`; in a sorted key list this is the
index of the first row whose key is `≥ v`. -/
def countLt (keys : List Int) (v : Int) : Nat :=
  (keys.filter fun x => decide (x < v)).length

/-- Number of keys at most `v`; in a sorted key list, one past the index of
the last row whose key is `≤ v`. -/
def countLe (keys : List Int) (v : Int) : Nat :=
  (keys.filter fun x => decide (x ≤ v)).length

/-- Modelled from the spec (§4.1, RANGE mode): the lower frame edge for a
row whose ordering-key value is `v`.  `preceding k` is the first row whose
key is `≥ v - k`; `currentRow` is the first peer (first key `≥ v`);
the unbounded variants are the partition edges. -/
def rangeLo (keys : List Int) (v : Int) : Boundary → Nat
  | Boundary.unboundedPreceding => 0
  | Boundary.unboundedFollowing => keys.length - 1
  | Boundary.currentRow => countLt keys v
  | Boundary.preceding k => countLt keys (v - k)
  | Boundary.following k => countLt keys (v + k)

/-- Modelled from the spec (§4.1, RANGE mode): the upper frame edge for a
row whose ordering-key value is `v`.  `following k` is the last row whose
key is `≤ v + k`; `currentRow` is the last peer (last key `≤ v`). -/
def rangeHi (keys : List Int) (v : Int) : Boundary → Nat
  | Boundary.unboundedPreceding => 0
  | Boundary.unboundedFollowing => keys.length - 1
  | Boundary.currentRow => countLe keys v - 1
  | Boundary.preceding k => countLe keys (v - k) - 1
  | Boundary.following k => countLe keys (v + k) - 1

/-- Modelled from the spec (§4.1): the RANGE-mode frame of a row is
resolved against the value `v` of its ordering key alone. -/
def rangeFrame (keys : List Int) (s b : Boundary) (v : Int) : Nat × Nat :=
  (rangeLo keys v s, rangeHi keys v b)

/-- The RANGE-mode frame of the row at index `i` of the sorted key list
`keys` (its ordering-key value is `keys[i]`). -/
def rangeFrameAt (keys : List Int) (s b : Boundary) (i : Nat) : Nat × Nat :=
  rangeFrame keys s b (keys.getD i 0)

/-- The evaluation-time error taxonomy relevant to frame resolution
(spec §4.1, §7). -/
inductive FrameError where
  | invalidFrame
deriving DecidableEq, Repr

/-- Modelled from the spec (§4.1, §4.4): the frame materializer for a
partition of size `n`.  It checks the `start ≤ end` invariant at
evaluation time — failing with `InvalidFrame` when the start boundary
resolves after the end boundary for any row — and otherwise produces the
`[lo_i, hi_i]` range for every row index. -/
def materializeRows (n : Nat) (s b : Boundary) : Except FrameError (List (Nat × Nat)) :=
  if (List.range n).all (fun i => decide (resolveRows n i s ≤ resolveRows n i b)) then
    Except.ok ((List.range n).map fun i => rowsFrame n i s b)
  else
    Except.error FrameError.invalidFrame

/-- A start boundary that never lies after the current row (the spec's
materializer invariant `lo_i ≤ i` concerns these). -/
def Boundary.atOrBeforeCurrent : Boundary → Bool
  | Boundary.unboundedPreceding => true
  | Boundary.currentRow => true
  | Boundary.preceding _ => true
  | _ => false

/-- An end boundary that never lies before the current row (the spec's
materializer invariant `i ≤ hi_i` concerns these). -/
def Boundary.atOrAfterCurrent : Boundary → Bool
  | Boundary.unboundedFollowing => true
  | Boundary.currentRow => true
  | Boundary.following _ => true
  | _ => false

/-! ### Helper lemmas -/

/-- `_to_java_cols` on a single list argument equals `_to_java_cols` on the
spread columns. -/
theorem to_java_cols_unwrap (cs : List String) :
    _to_java_cols [Arg.colList cs] = _to_java_cols (cs.map Arg.col) := by
  cases cs with
  | nil => rfl
  | cons c cs' => cases cs' <;> rfl

/-- A successful builder call allocates exactly one fresh object at the end
of the heap and returns a reference to it. -/
theorem applyCall_shape (h : PyHeap) (r : Ref) (c : BuilderCall) (p : PyHeap × Ref)
    (hc : applyCall h r c = some p) :
    ∃ j, p.1.objs = h.objs ++ [j] ∧ p.2.id = h.objs.length := by
  cases c with
  | partitionBy cols =>
    cases hg : h.get r with
    | none => simp [applyCall, hg] at hc
    | some js =>
      cases hj : _to_java_cols cols with
      | none => simp [applyCall, hg, hj] at hc
      | some jcols =>
        simp [applyCall, hg, hj, PyHeap.alloc] at hc
        exact ⟨_, by rw [← hc], by rw [← hc]⟩
  | orderBy cols =>
    cases hg : h.get r with
    | none => simp [applyCall, hg] at hc
    | some js =>
      cases hj : _to_java_cols cols with
      | none => simp [applyCall, hg, hj] at hc
      | some jcols =>
        simp [applyCall, hg, hj, PyHeap.alloc] at hc
        exact ⟨_, by rw [← hc], by rw [← hc]⟩
  | rowsBetween a b =>
    cases hg : h.get r with
    | none => simp [applyCall, hg] at hc
    | some js =>
      simp [applyCall, hg, PyHeap.alloc] at hc
      exact ⟨_, by rw [← hc], by rw [← hc]⟩
  | rangeBetween a b =>
    cases hg : h.get r with
    | none => simp [applyCall, hg] at hc
    | some js =>
      simp [applyCall, hg, PyHeap.alloc] at hc
      exact ⟨_, by rw [← hc], by rw [← hc]⟩

/-- A chain of builder calls never changes the attribute of any object that
already existed before the chain ran. -/
theorem applyCalls_get_preserved (calls : List BuilderCall) :
    ∀ h r p, applyCalls h r calls = some p →
      ∀ i, i < h.objs.length → p.1.objs.get? i = h.objs.get? i := by
  induction calls with
  | nil =>
    intro h r p hp i hi
    simp only [applyCalls, Option.some_inj] at hp
    rw [← hp]
  | cons c rest ih =>
    intro h r p hp i hi
    cases hq : applyCall h r c with
    | none => simp [applyCalls, hq] at hp
    | some q =>
      have hrest : applyCalls q.1 q.2 rest = some p := by
        simpa [applyCalls, hq] using hp
      obtain ⟨j, hobjs, -⟩ := applyCall_shape h r c q hq
      have h1 : q.1.objs.get? i = h.objs.get? i := by
        rw [hobjs]; exact List.get?_append hi
      have h2 := ih q.1 q.2 p hrest i (by rw [hobjs]; simp; omega)
      rw [h2, h1]

/-- Decoding a non-sentinel negative integer offset yields a `preceding`
boundary with the offset's magnitude. -/
theorem decodeBoundary_neg (k : Nat) (h0 : 0 < k) (hk : (k : Int) < 2 ^ 63) :
    decodeBoundary (-(k : Int)) = Boundary.preceding k := by
  unfold decodeBoundary _JAVA_MIN_LONG _JAVA_MAX_LONG
  rw [if_neg (by omega), if_neg (by omega), if_pos (by omega)]
  rw [neg_neg, Int.toNat_natCast]

/-- Decoding a non-sentinel positive integer offset yields a `following`
boundary with the offset's magnitude. -/
theorem decodeBoundary_pos (k : Nat) (h0 : 0 < k) (hk : (k : Int) < 2 ^ 63 - 1) :
    decodeBoundary (k : Int) = Boundary.following k := by
  unfold decodeBoundary _JAVA_MIN_LONG _JAVA_MAX_LONG
  rw [if_neg (by omega), if_neg (by omega), if_neg (by omega), if_neg (by omega),
    Int.toNat_natCast]

/-- A resolved ROWS boundary never exceeds the last row index. -/
theorem resolveRows_le_last (n i : Nat) (b : Boundary) (hi : i < n) :
    resolveRows n i b ≤ n - 1 := by
  cases b <;> simp [resolveRows] <;> omega

/-- ROWS-mode boundary resolution is monotone in the row index. -/
theorem resolveRows_mono (n i j : Nat) (b : Boundary) (hij : i ≤ j) :
    resolveRows n i b ≤ resolveRows n j b := by
  cases b <;> simp [resolveRows] <;> omega

/-- Sanity: the spec's RANGE scenario — keys `[1,2,2,3]` with
`rangeBetween(-1, 1)` produce frames `[0,2],[0,3],[0,3],[1,3]`. -/
theorem range_scenario :
    ([0, 1, 2, 3] : List Nat).map
        (rangeFrameAt [1, 2, 2, 3] (Boundary.preceding 1) (Boundary.following 1))
      = [(0, 2), (0, 3), (0, 3), (1, 3)] := by
  decide

/-! ### Claim theorems -/

/-- C1: for every integer `start` and `end`, `rowsBetween(start, end)` and
`rangeBetween(start, end)` replace `start` by `-(2^63)` whenever
`start ≤ -sys.maxsize`, replace `end` by `2^63 - 1` whenever
`end ≥ sys.maxsize`, and forward the (possibly clamped) pair to the engine
spec; an offset at or beyond the representable extreme is decoded as the
corresponding unbounded boundary, never treated as an error. -/
theorem sentinel_clamping (w : WindowSpec) (a b : Int) :
    (w.rowsBetween a b)._jspec
      = JSpec.specRowsBetween w._jspec (if a ≤ -sysMaxsize then -(2 ^ 63) else a)
          (if b ≥ sysMaxsize then 2 ^ 63 - 1 else b)
  ∧ (w.rangeBetween a b)._jspec
      = JSpec.specRangeBetween w._jspec (if a ≤ -sysMaxsize then -(2 ^ 63) else a)
          (if b ≥ sysMaxsize then 2 ^ 63 - 1 else b)
  ∧ (a ≤ -sysMaxsize →
      decodeBoundary (if a ≤ -sysMaxsize then -(2 ^ 63) else a) = Boundary.unboundedPreceding)
  ∧ (b ≥ sysMaxsize →
      decodeBoundary (if b ≥ sysMaxsize then 2 ^ 63 - 1 else b) = Boundary.unboundedFollowing) := by
  refine ⟨rfl, rfl, fun ha => ?_, fun hb => ?_⟩
  · rw [if_pos ha]; decide
  · rw [if_pos hb]; decide

/-- Witness for C1 at `start = -sys.maxsize`, `end = sys.maxsize`. -/
theorem sentinel_clamping_witness :
    ((-sysMaxsize : Int) ≤ -sysMaxsize)
  ∧ decodeBoundary (if (-sysMaxsize : Int) ≤ -sysMaxsize then -(2 ^ 63) else -sysMaxsize)
      = Boundary.unboundedPreceding
  ∧ decodeBoundary (if (sysMaxsize : Int) ≥ sysMaxsize then 2 ^ 63 - 1 else sysMaxsize)
      = Boundary.unboundedFollowing :=
  ⟨le_refl _,
   (sentinel_clamping ⟨JSpec.windowPartitionBy []⟩ (-sysMaxsize) sysMaxsize).2.2.1 (le_refl _),
   (sentinel_clamping ⟨JSpec.windowPartitionBy []⟩ (-sysMaxsize) sysMaxsize).2.2.2 (le_refl _)⟩

/-- C2: the source's `Window.orderBy` does not invoke the engine's `orderBy`
operation — its body calls the engine's `partitionBy`, so its result is
identical to `Window.partitionBy` on every input, contradicting the claimed
(and intended) semantics that the two differ for some input. -/
theorem orderBy_equals_partitionBy :
    Window.orderBy [Arg.col "date"] = Window.partitionBy [Arg.col "date"]
  ∧ ∀ cols, Window.orderBy cols = Window.partitionBy cols :=
  ⟨rfl, fun _ => rfl⟩

/-- C5: the frames of `rowsBetween(-sys.maxsize, 0)` coincide with the
frames of `rowsBetween(unbounded_preceding, 0)` (the `-(2^63)` sentinel)
and with the frames of the unbounded-preceding-to-current-row boundary
pair, for every partition size and row. -/
theorem clamping_equivalence (n i : Nat) :
    frameAt (-sysMaxsize) 0 n i = frameAt _JAVA_MIN_LONG 0 n i
  ∧ frameAt (-sysMaxsize) 0 n i
      = rowsFrame n i Boundary.unboundedPreceding Boundary.currentRow := by
  have hstart : decodeBoundary
      (if (-sysMaxsize : Int) ≤ -sysMaxsize then _JAVA_MIN_LONG else -sysMaxsize)
      = Boundary.unboundedPreceding := by decide
  have hstart2 : decodeBoundary
      (if (_JAVA_MIN_LONG : Int) ≤ -sysMaxsize then _JAVA_MIN_LONG else _JAVA_MIN_LONG)
      = Boundary.unboundedPreceding := by decide
  have hstop : decodeBoundary ((if (0 : Int) ≥ sysMaxsize then _JAVA_MAX_LONG else 0))
      = Boundary.currentRow := by decide
  unfold frameAt
  rw [hstart, hstart2, hstop]
  exact ⟨rfl, rfl⟩

/-- C9: a single list argument is unwrapped by the column-conversion
helper, so passing one list of columns builds the same specification as
spreading the columns as separate arguments, for `Window.partitionBy`,
`Window.orderBy` and the `WindowSpec` column mutators. -/
theorem single_list_unwrap (cs : List String) (w : WindowSpec) :
    Window.partitionBy [Arg.colList cs] = Window.partitionBy (cs.map Arg.col)
  ∧ Window.orderBy [Arg.colList cs] = Window.orderBy (cs.map Arg.col)
  ∧ w.partitionBy [Arg.colList cs] = w.partitionBy (cs.map Arg.col)
  ∧ w.orderBy [Arg.colList cs] = w.orderBy (cs.map Arg.col) := by
  refine ⟨?_, ?_, ?_, ?_⟩ <;>
    simp [Window.partitionBy, Window.orderBy, WindowSpec.partitionBy, WindowSpec.orderBy,
      to_java_cols_unwrap]

/-- C10: only `start` is compared against the lower extreme and only `end`
against the upper extreme: any `start > -sys.maxsize` (even one at or above
`sys.maxsize`) and any `end < sys.maxsize` (even one at or below
`-sys.maxsize`) are forwarded to the engine unchanged, not converted to an
unbounded boundary. -/
theorem one_sided_clamping (w : WindowSpec) (a b : Int)
    (ha : -sysMaxsize < a) (hb : b < sysMaxsize) :
    w.rowsBetween a b = ⟨JSpec.specRowsBetween w._jspec a b⟩
  ∧ w.rangeBetween a b = ⟨JSpec.specRangeBetween w._jspec a b⟩ := by
  have h1 : ¬ a ≤ -sysMaxsize := not_le.mpr ha
  have h2 : ¬ b ≥ sysMaxsize := not_le.mpr hb
  simp [WindowSpec.rowsBetween, WindowSpec.rangeBetween, h1, h2]

/-- Witness for C10 at the extreme positive `start = sys.maxsize` and the
extreme negative `end = -sys.maxsize`. -/
theorem one_sided_clamping_witness :
    (-sysMaxsize : Int) < sysMaxsize ∧ (-sysMaxsize : Int) < sysMaxsize
  ∧ WindowSpec.rowsBetween ⟨JSpec.windowPartitionBy []⟩ sysMaxsize (-sysMaxsize)
      = ⟨JSpec.specRowsBetween (JSpec.windowPartitionBy []) sysMaxsize (-sysMaxsize)⟩ :=
  ⟨by decide, by decide,
   (one_sided_clamping ⟨JSpec.windowPartitionBy []⟩ sysMaxsize (-sysMaxsize)
      (by decide) (by decide)).1⟩

/-- C3: copy-on-write builder semantics — every successful `WindowSpec`
mutator call returns a new object (distinct from the receiver) and leaves
the receiver's wrapped engine spec unchanged, so after any sequence of
builder calls applied to an allocated spec `r`, `r` still denotes the same
specification as before. -/
theorem builder_copy_on_write (h : PyHeap) (r : Ref) (hr : r.id < h.objs.length) :
    (∀ c p, applyCall h r c = some p → p.2 ≠ r ∧ p.1.get r = h.get r)
  ∧ (∀ calls p, applyCalls h r calls = some p → p.1.get r = h.get r) := by
  constructor
  · intro c p hc
    obtain ⟨j, hobjs, hid⟩ := applyCall_shape h r c p hc
    constructor
    · intro he
      rw [he] at hid
      omega
    · show p.1.objs.get? r.id = h.objs.get? r.id
      rw [hobjs]
      exact List.get?_append hr
  · intro calls p hc
    exact applyCalls_get_preserved calls h r p hc r.id hr

/-- Witness for C3: a one-object heap, one `rowsBetween` call. -/
theorem builder_copy_on_write_witness :
    (Ref.mk 0).id < (PyHeap.mk [JSpec.windowPartitionBy []]).objs.length
  ∧ PyHeap.get
      ⟨[JSpec.windowPartitionBy [],
        JSpec.specRowsBetween (JSpec.windowPartitionBy []) 1 2]⟩ ⟨0⟩
      = PyHeap.get ⟨[JSpec.windowPartitionBy []]⟩ ⟨0⟩ :=
  ⟨by decide,
   (builder_copy_on_write ⟨[JSpec.windowPartitionBy []]⟩ ⟨0⟩ (by decide)).2
     [BuilderCall.rowsBetween 1 2]
     (⟨[JSpec.windowPartitionBy [],
        JSpec.specRowsBetween (JSpec.windowPartitionBy []) 1 2]⟩, ⟨1⟩)
     (by decide)⟩

/-- C4 counterexample: the claim quantifies over all non-negative `k`, but
for `k = 2^63 - 1` (at the extreme, so the builder clamps `-k` to the
unbounded-preceding sentinel) on a partition of size `2^63 + 1` at row
`i = 2^63`, the produced lower edge is `0` while the claimed formula
`max(0, i-k)` gives `1`. -/
theorem rows_symmetric_frames_cex :
    frameAt (-(2 ^ 63 - 1)) (2 ^ 63 - 1) (2 ^ 63 + 1) (2 ^ 63)
      ≠ ((2 ^ 63 : Nat) - (2 ^ 63 - 1),
         min ((2 ^ 63 : Nat) + (2 ^ 63 - 1)) ((2 ^ 63 + 1) - 1)) := by
  decide

/-- C4 amended: for all non-negative `k` strictly below `sys.maxsize`
(offsets at or beyond the extreme are clamped to unbounded per C1),
`rowsBetween(-k, k)` at row `i < n` produces exactly the frame
`[max(0, i-k), min(n-1, i+k)]`, and in ROWS mode `Preceding(k)` resolves to
`i - k` clamped to the partition start while `Following(k)` resolves to
`i + k` clamped to the partition end. -/
theorem rows_symmetric_frames (k n i : Nat) (hi : i < n) (hk : (k : Int) < sysMaxsize) :
    frameAt (-(k : Int)) (k : Int) n i = (i - k, min (i + k) (n - 1))
  ∧ resolveRows n i (Boundary.preceding k) = i - k
  ∧ resolveRows n i (Boundary.following k) = min (i + k) (n - 1) := by
  refine ⟨?_, rfl, rfl⟩
  have hs : sysMaxsize = 2 ^ 63 - 1 := rfl
  rw [hs] at hk
  have hstart : ¬ (-(k : Int) ≤ -sysMaxsize) := by rw [hs]; omega
  have hstop : ¬ ((k : Int) ≥ sysMaxsize) := by rw [hs]; omega
  unfold frameAt
  rw [if_neg hstart, if_neg hstop]
  rcases Nat.eq_zero_or_pos k with hk0 | hk0
  · subst hk0
    have h0 : decodeBoundary (-(0 : Nat) : Int) = Boundary.currentRow := by decide
    have h0' : decodeBoundary ((0 : Nat) : Int) = Boundary.currentRow := by decide
    rw [h0, h0']
    simp only [rowsFrame, resolveRows, Prod.mk.injEq]
    constructor <;> omega
  · rw [decodeBoundary_neg k hk0 (by omega), decodeBoundary_pos k hk0 (by omega)]
    unfold rowsFrame resolveRows
    rfl

/-- Witness for C4 amended at `k = 1`, `n = 3`, `i = 1`. -/
theorem rows_symmetric_frames_witness :
    1 < 3 ∧ ((1 : Nat) : Int) < sysMaxsize
  ∧ frameAt (-((1 : Nat) : Int)) ((1 : Nat) : Int) 3 1 = (1 - 1, min (1 + 1) (3 - 1)) :=
  ⟨by decide, by decide, (rows_symmetric_frames 1 3 1 (by decide) (by decide)).1⟩

/-- C6: under any fixed RANGE-mode frame specification, two rows of the
same partition with equal ordering-key values resolve to identical frames
— RANGE frames depend only on the row's key value. -/
theorem range_tie_invariant (keys : List Int) (s b : Boundary) (i j : Nat)
    (hi : i < keys.length) (hj : j < keys.length)
    (hij : keys.getD i 0 = keys.getD j 0) :
    rangeFrameAt keys s b i = rangeFrameAt keys s b j := by
  unfold rangeFrameAt
  rw [hij]

/-- Witness for C6: the tied rows at indices 1 and 2 of keys `[1,2,2,3]`. -/
theorem range_tie_invariant_witness :
    1 < ([1, 2, 2, 3] : List Int).length ∧ 2 < ([1, 2, 2, 3] : List Int).length
  ∧ ([1, 2, 2, 3] : List Int).getD 1 0 = ([1, 2, 2, 3] : List Int).getD 2 0
  ∧ rangeFrameAt [1, 2, 2, 3] (Boundary.preceding 1) (Boundary.following 1) 1
      = rangeFrameAt [1, 2, 2, 3] (Boundary.preceding 1) (Boundary.following 1) 2 :=
  ⟨by decide, by decide, by decide,
   range_tie_invariant [1, 2, 2, 3] (Boundary.preceding 1) (Boundary.following 1) 1 2
     (by decide) (by decide) (by decide)⟩

/-- C7 counterexample: the frame of `rowsBetween(2 FOLLOWING, 5 FOLLOWING)`
at row `i = 0` of a 4-row partition is `[2, 3]` — non-empty, yet its lower
edge exceeds `i`, refuting `lo_i ≤ i` for non-empty frames. -/
theorem materializer_invariant_cex :
    (rowsFrame 4 0 (Boundary.following 2) (Boundary.following 5)).1
      ≤ (rowsFrame 4 0 (Boundary.following 2) (Boundary.following 5)).2
  ∧ ¬ (rowsFrame 4 0 (Boundary.following 2) (Boundary.following 5)).1 ≤ 0 := by
  decide

/-- C7 amended: for every partition of size `n ≥ 1` and row `i < n`, both
materialized frame edges lie within `[0, n-1]`; `lo_i ≤ i` holds whenever
the start boundary is not a following/unbounded-following one, and
`i ≤ hi_i` holds whenever the end boundary is not a
preceding/unbounded-preceding one (for a frame shifted strictly past the
current row the middle inequality can fail); and the two pointers are
monotone — they only move forward as `i` increases. -/
theorem materializer_invariant (n i j : Nat) (s b : Boundary)
    (hi : i < n) (hj : j < n) (hij : i ≤ j) :
    ((rowsFrame n i s b).1 ≤ n - 1 ∧ (rowsFrame n i s b).2 ≤ n - 1)
  ∧ (Boundary.atOrBeforeCurrent s = true → (rowsFrame n i s b).1 ≤ i)
  ∧ (Boundary.atOrAfterCurrent b = true → i ≤ (rowsFrame n i s b).2)
  ∧ ((rowsFrame n i s b).1 ≤ (rowsFrame n j s b).1
      ∧ (rowsFrame n i s b).2 ≤ (rowsFrame n j s b).2) := by
  refine ⟨⟨resolveRows_le_last n i s hi, resolveRows_le_last n i b hi⟩, ?_, ?_,
    resolveRows_mono n i j s hij, resolveRows_mono n i j b hij⟩
  · intro hs
    cases s <;> simp [Boundary.atOrBeforeCurrent] at hs <;> simp [rowsFrame, resolveRows] <;> omega
  · intro hb
    cases b <;> simp [Boundary.atOrAfterCurrent] at hb <;> simp [rowsFrame, resolveRows] <;> omega

/-- Witness for C7 amended at `n = 3`, `i = 1`, `j = 2`,
`rowsBetween(1 PRECEDING, 1 FOLLOWING)`. -/
theorem materializer_invariant_witness :
    (1 < 3 ∧ 2 < 3 ∧ 1 ≤ 2)
  ∧ (Boundary.atOrBeforeCurrent (Boundary.preceding 1) = true →
      (rowsFrame 3 1 (Boundary.preceding 1) (Boundary.following 1)).1 ≤ 1) :=
  ⟨by decide,
   (materializer_invariant 3 1 2 (Boundary.preceding 1) (Boundary.following 1)
     (by decide) (by decide) (by decide)).2.1⟩

/-- C8: frame construction performs no validation — for every pair of
integers, including `start > end`, `rowsBetween` and `rangeBetween` return
a `WindowSpec` wrapping an engine frame node — while the `start ≤ end`
invariant is checked at evaluation time, where its violation at any row
fails with `InvalidFrame`. -/
theorem no_construction_validation (w : WindowSpec) (a b : Int) (n : Nat)
    (s e : Boundary) (i : Nat) (hi : i < n)
    (hv : resolveRows n i e < resolveRows n i s) :
    (∃ u v : Int, w.rowsBetween a b = ⟨JSpec.specRowsBetween w._jspec u v⟩
      ∧ w.rangeBetween a b = ⟨JSpec.specRangeBetween w._jspec u v⟩)
  ∧ materializeRows n s e = Except.error FrameError.invalidFrame := by
  constructor
  · exact ⟨_, _, rfl, rfl⟩
  · unfold materializeRows
    rw [if_neg]
    intro hall
    rw [List.all_eq_true] at hall
    have h := hall i (List.mem_range.mpr hi)
    simp only [decide_eq_true_eq] at h
    omega

/-- Witness for C8: `rowsBetween(7, -7)` is constructed without error, and
the boundary pair `(1 FOLLOWING, 1 PRECEDING)` fails at evaluation time on
a 3-row partition. -/
theorem no_construction_validation_witness :
    (1 < 3 ∧ resolveRows 3 1 (Boundary.preceding 1) < resolveRows 3 1 (Boundary.following 1))
  ∧ materializeRows 3 (Boundary.following 1) (Boundary.preceding 1)
      = Except.error FrameError.invalidFrame :=
  ⟨by decide,
   (no_construction_validation ⟨JSpec.windowPartitionBy []⟩ 7 (-7) 3
     (Boundary.following 1) (Boundary.preceding 1) 1 (by decide) (by decide)).2⟩

end SparkWindow
